import Mathlib

/-!
Verification of the WhatsApp conversation-analyzer core (shallow embedding).

The Python sources under `src/` are embedded as executable Lean definitions:
* strings are Lean `String`s (lists of characters), Python `str.replace` /
  `in` are re-implemented with the same left-to-right, non-overlapping
  semantics;
* `datetime` values are a record of numeric fields validated exactly as
  Python's `datetime` constructor validates them (an invalid construction,
  which raises `ValueError` in Python, is `none` here);
* the filesystem is abstracted to the list of file names a directory listing
  yields, in listing order; file contents (the transcript) are a `List String`
  of raw lines; writing the buffer back to disk is outside the model;
* external effects (ZIP extraction, the transcription API) are oracle
  parameters supplied to the embedded functions;
* Python's stable `list.sort` is modelled by `List.insertionSort`, which is
  stable with respect to the same total preorder and therefore produces the
  same list.
-/

namespace SalesAnalyzer

/-! ### Python string primitives -/

/-- Python's `pat in s` substring test, on character lists:
true iff `pat` occurs contiguously inside `s`. -/
def subSeq (pat : List Char) : List Char → Bool
  | [] => pat.isEmpty
  | c :: rest => pat.isPrefixOf (c :: rest) || subSeq pat rest

/-- Python's `pat in s` substring test on strings. -/
def pyIn (pat s : String) : Bool :=
  subSeq pat.toList s.toList

/-- One left-to-right pass of Python's `str.replace`: at each position, if the
pattern starts here, emit the replacement and skip the pattern, otherwise keep
the character and move on (leftmost, non-overlapping).  `fuel` only bounds the
recursion; it is always called with `fuel = s.length`, which is sufficient
because every step consumes at least one character of `s`. -/
def replaceAllFuel (pat repl : List Char) : Nat → List Char → List Char
  | _, [] => []
  | 0, s => s
  | fuel + 1, c :: rest =>
    if pat ≠ [] ∧ pat.isPrefixOf (c :: rest) then
      repl ++ replaceAllFuel pat repl fuel ((c :: rest).drop pat.length)
    else
      c :: replaceAllFuel pat repl fuel rest

/-- Python's `s.replace(pat, repl)` for a non-empty pattern (every use in the
sources has a non-empty pattern; for an empty pattern this returns `s`
unchanged, which is never exercised). -/
def pyReplace (s pat repl : String) : String :=
  ⟨replaceAllFuel pat.toList repl.toList s.toList.length s.toList⟩

/-- Digit list to the natural number Python's `int()` returns on it. -/
def digitsToNat (cs : List Char) : Nat :=
  cs.foldl (fun acc c => acc * 10 + (c.toNat - '0'.toNat)) 0

/-- Python's `s.strip()`: drop leading and trailing whitespace. -/
def pyStrip (s : String) : String :=
  ⟨(((s.toList.dropWhile Char.isWhitespace).reverse.dropWhile
      Char.isWhitespace).reverse)⟩

/-- Python's `s.lower()` (ASCII, which covers every extension compared). -/
def pyLower (s : String) : String :=
  ⟨s.toList.map Char.toLower⟩

/-- Python's `int(s)` restricted to the inputs the sources feed it (strings of
decimal digits produced by a regex group); anything else raises `ValueError`,
modelled as `none`. -/
def pyInt? (cs : List Char) : Option Nat :=
  if cs ≠ [] ∧ cs.all Char.isDigit then some (digitsToNat cs) else none

/-- Split a character list on every occurrence of a separator character,
Python's `s.split(sep)` for a single-character separator. -/
def splitChar (sep : Char) : List Char → List (List Char)
  | [] => [[]]
  | c :: rest =>
    match splitChar sep rest with
    | [] => if c = sep then [[], []] else [[c]]
    | h :: t => if c = sep then [] :: h :: t else (c :: h) :: t

/-- Index of the last `'.'` in a file name, if any (CPython's `name.rfind('.')`). -/
def lastDotIdx (cs : List Char) : Option Nat :=
  (List.range cs.length).foldl
    (fun acc i => if cs.get? i = some '.' then some i else acc) none

/-- pathlib's `Path(name).suffix`: the extension from the last dot, empty when
the dot is leading, trailing or absent. -/
def pathSuffix (name : String) : String :=
  let cs := name.toList
  match lastDotIdx cs with
  | some i => if 0 < i ∧ i + 1 < cs.length then ⟨cs.drop i⟩ else ""
  | none => ""

/-- pathlib's `Path(name).stem`: the name without its `pathSuffix`. -/
def pathStem (name : String) : String :=
  let cs := name.toList
  match lastDotIdx cs with
  | some i => if 0 < i ∧ i + 1 < cs.length then ⟨cs.take i⟩ else name
  | none => name

/-- pathlib's `Path(p).name`: the component after the last `/`. -/
def pathName (p : String) : String :=
  ⟨((splitChar '/' p.toList).getLastD [])⟩

/-! ### Python `datetime` model -/

/-- A Python `datetime.datetime` value (year, month, day, hour, minute,
second, microsecond). -/
structure PyDateTime where
  year : Nat
  month : Nat
  day : Nat
  hour : Nat
  minute : Nat
  second : Nat
  micro : Nat
deriving Repr, DecidableEq

/-- Python leap-year rule. -/
def isLeap (y : Nat) : Bool :=
  (y % 4 = 0 && y % 100 ≠ 0) || y % 400 = 0

/-- Days in a month (0 for an out-of-range month, which the constructor
rejects anyway). -/
def daysInMonth (y m : Nat) : Nat :=
  match m with
  | 1 => 31
  | 2 => if isLeap y then 29 else 28
  | 3 => 31
  | 4 => 30
  | 5 => 31
  | 6 => 30
  | 7 => 31
  | 8 => 31
  | 9 => 30
  | 10 => 31
  | 11 => 30
  | 12 => 31
  | _ => 0

/-- Python's `datetime(...)` constructor: `some` on in-range fields, `none`
where Python raises `ValueError`. -/
def mkDatetime? (y mo d h mi s mic : Nat) : Option PyDateTime :=
  if 1 ≤ y ∧ y ≤ 9999 ∧ 1 ≤ mo ∧ mo ≤ 12 ∧ 1 ≤ d ∧ d ≤ daysInMonth y mo
      ∧ h ≤ 23 ∧ mi ≤ 59 ∧ s ≤ 59 ∧ mic ≤ 999999 then
    some ⟨y, mo, d, h, mi, s, mic⟩
  else none

/-- Order-preserving numeric encoding of a datetime (the bases strictly bound
the valid field ranges, so on constructor-validated values `key` is ordered
exactly like Python's lexicographic `datetime` comparison). -/
def PyDateTime.key (t : PyDateTime) : Nat :=
  (((((t.year * 13 + t.month) * 32 + t.day) * 24 + t.hour) * 60
      + t.minute) * 60 + t.second) * 1000000 + t.micro

/-- Python's `datetime.max` (9999-12-31 23:59:59.999999). -/
def datetimeMax : PyDateTime := ⟨9999, 12, 31, 23, 59, 59, 999999⟩

/-- Python's `datetime.strptime(date_str, "%Y%m%d")` on an 8-digit group:
4-digit year, 2-digit month, 2-digit day, validated as a real date. -/
def strptimeYmd (d8 : List Char) : Option PyDateTime := do
  let y ← pyInt? (d8.take 4)
  let mo ← pyInt? ((d8.drop 4).take 2)
  let d ← pyInt? ((d8.drop 6).take 2)
  mkDatetime? y mo d 0 0 0 0

/-! ### Regex-style filename matchers

Each pattern of the sources is a concatenation of literals and fixed-width
digit runs, so `re.search` is embedded as a deterministic attempt at every
start position, leftmost first. -/

/-- Expect a literal at the head of the input, returning the rest. -/
def dropLit (lit cs : List Char) : Option (List Char) :=
  if lit.isPrefixOf cs then some (cs.drop lit.length) else none

/-- Expect exactly `n` decimal digits at the head of the input. -/
def takeDigits : Nat → List Char → Option (List Char × List Char)
  | 0, cs => some ([], cs)
  | _ + 1, [] => none
  | n + 1, c :: rest =>
    if c.isDigit then
      (takeDigits n rest).map (fun p => (c :: p.1, p.2))
    else none

/-- re.search: try the position matcher at every start position, leftmost
match wins. -/
def searchOpt (m : List Char → Option α) : List Char → Option α
  | [] => m []
  | c :: rest =>
    match m (c :: rest) with
    | some r => some r
    | none => searchOpt m rest

/-- Position matcher for `PTT-(\d{8})-WA(\d{4})`. -/
def matchPTT (cs : List Char) : Option (List Char × List Char) := do
  let r ← dropLit "PTT-".toList cs
  let (d8, r) ← takeDigits 8 r
  let r ← dropLit "-WA".toList r
  let (w4, _) ← takeDigits 4 r
  pure (d8, w4)

/-- Position matcher for `IMG-(\d{8})-WA(\d{4})`. -/
def matchImgDash (cs : List Char) : Option (List Char × List Char) := do
  let r ← dropLit "IMG-".toList cs
  let (d8, r) ← takeDigits 8 r
  let r ← dropLit "-WA".toList r
  let (w4, _) ← takeDigits 4 r
  pure (d8, w4)

/-- Position matcher for `IMG_(\d{8})_(\d{6})`. -/
def matchImgUnderscore (cs : List Char) : Option (List Char × List Char) := do
  let r ← dropLit "IMG_".toList cs
  let (d8, r) ← takeDigits 8 r
  let r ← dropLit "_".toList r
  let (d6, _) ← takeDigits 6 r
  pure (d8, d6)

/-- Position matcher for `(\d{4})(\d{2})(\d{2})_(\d{2})(\d{2})(\d{2})`. -/
def matchYmdHms (cs : List Char) :
    Option (List Char × List Char × List Char × List Char × List Char × List Char) := do
  let (y, r) ← takeDigits 4 cs
  let (mo, r) ← takeDigits 2 r
  let (d, r) ← takeDigits 2 r
  let r ← dropLit "_".toList r
  let (h, r) ← takeDigits 2 r
  let (mi, r) ← takeDigits 2 r
  let (s, _) ← takeDigits 2 r
  pure (y, mo, d, h, mi, s)

/-! ### `timestamp_parser.py` — `TimestampParser` -/

namespace TimestampParser

/-- `TimestampParser.extract_timestamp`: search the stem for the single
`PTT-YYYYMMDD-WAXXXX` pattern and parse the date with
`strptime("%Y%m%d")` (a `ValueError` falls through to `None`). -/
def extract_timestamp (filename : String) : Option PyDateTime :=
  match searchOpt matchPTT (pathStem filename).toList with
  | some (d8, _) => strptimeYmd d8
  | none => none

/-- `TimestampParser.is_audio_file`: extension is `.opus` (case-insensitive). -/
def is_audio_file (filename : String) : Bool :=
  pyLower (pathSuffix filename) = ".opus"

/-- The pre-sort accumulation loop of `get_audio_files_with_timestamps`:
every listed file that is an audio file *and* yields a timestamp, in listing
order; files without an extractable timestamp are skipped. -/
def eligibleAudio (dir : List String) : List (String × PyDateTime) :=
  dir.filterMap fun f =>
    if is_audio_file f then
      (extract_timestamp f).map fun t => (f, t)
    else none

/-- `TimestampParser.get_audio_files_with_timestamps`: the eligible files
sorted ascending by timestamp with Python's stable `list.sort`, modelled by
the stable `List.insertionSort`. -/
def get_audio_files_with_timestamps (dir : List String) :
    List (String × PyDateTime) :=
  List.insertionSort (fun a b => a.2.key ≤ b.2.key) (eligibleAudio dir)

end TimestampParser

/-! ### `image_processor.py` — `ImageProcessor` -/

namespace ImageProcessor

/-- The `supported_formats` extension set. -/
def supported_formats : List String :=
  [".jpg", ".jpeg", ".png", ".gif", ".bmp", ".webp"]

/-- `ImageProcessor.get_image_files`: listed files whose lower-cased extension
is supported, in listing order. -/
def get_image_files (dir : List String) : List String :=
  dir.filter fun f => supported_formats.contains (pyLower (pathSuffix f))

/-- Third pattern iteration of `extract_timestamp_from_filename`
(`YYYYMMDD_HHMMSS`): a match whose fields fail `datetime` validation
(`ValueError`) means no pattern is left, hence `None`. -/
def tryPatternYmdHms (stem : List Char) : Option PyDateTime :=
  match searchOpt matchYmdHms stem with
  | some (y, mo, d, h, mi, s) =>
    mkDatetime? (digitsToNat y) (digitsToNat mo) (digitsToNat d)
      (digitsToNat h) (digitsToNat mi) (digitsToNat s) 0
  | none => none

/-- Second pattern iteration (`IMG_YYYYMMDD_HHMMSS`; only the date group is
used): a `ValueError` from `strptime` falls through (`continue`) to the
third pattern, as does a failed search. -/
def tryPatternImgUnderscore (stem : List Char) : Option PyDateTime :=
  match searchOpt matchImgUnderscore stem with
  | some (d8, _) =>
    match strptimeYmd d8 with
    | some t => some t
    | none => tryPatternYmdHms stem
  | none => tryPatternYmdHms stem

/-- `ImageProcessor.extract_timestamp_from_filename`: try the three image
patterns in order on the stem, falling through on search or parse failure. -/
def extract_timestamp_from_filename (filename : String) : Option PyDateTime :=
  let stem := (pathStem filename).toList
  match searchOpt matchImgDash stem with
  | some (d8, _) =>
    match strptimeYmd d8 with
    | some t => some t
    | none => tryPatternImgUnderscore stem
  | none => tryPatternImgUnderscore stem

/-- `ImageProcessor.get_images_with_timestamps`: every supported image paired
with its (optional) timestamp, sorted stably ascending with missing
timestamps keyed as `datetime.max` (the `x[1] or datetime.max` sort key). -/
def get_images_with_timestamps (dir : List String) :
    List (String × Option PyDateTime) :=
  List.insertionSort
    (fun a b => (a.2.getD datetimeMax).key ≤ (b.2.getD datetimeMax).key)
    ((get_image_files dir).map fun f => (f, extract_timestamp_from_filename f))

end ImageProcessor

/-! ### `text_processor.py` — `WhatsAppTextProcessor` -/

namespace WhatsAppTextProcessor

/-- One parsed WhatsApp message (the dict built by `parse_whatsapp_format`).
`timestamp = none` models the `datetime.now()` fallback taken when the
timestamp fields fail to parse. -/
structure Message where
  timestamp : Option PyDateTime
  date_str : String
  time_str : String
  sender : String
  content : String
  line_number : Nat
  original_line : String
deriving Repr, DecidableEq

/-- Maximal run of decimal digits whose length must lie in `[lo, hi]`; because
every digit run in the header regex is followed by a non-digit literal, the
regex matches exactly when the maximal run has an admissible length. -/
def digitRun (lo hi : Nat) (cs : List Char) : Option (List Char × List Char) :=
  let p := cs.span Char.isDigit
  if lo ≤ p.1.length ∧ p.1.length ≤ hi then some p else none

/-- The header regex
`^(\d{1,2}/\d{1,2}/\d{4}), (\d{1,2}:\d{2}) (a\.m\.|p\.m\.) - ([^:]+): (.+)$`
as a deterministic matcher; returns the five groups
(date, time, meridiem, sender, content). -/
def matchHeader (line : String) :
    Option (String × String × String × String × String) := do
  let (day, r) ← digitRun 1 2 line.toList
  let r ← dropLit "/".toList r
  let (mon, r) ← digitRun 1 2 r
  let r ← dropLit "/".toList r
  let (yr, r) ← digitRun 4 4 r
  let r ← dropLit ", ".toList r
  let (hh, r) ← digitRun 1 2 r
  let r ← dropLit ":".toList r
  let (mm, r) ← digitRun 2 2 r
  let r ← dropLit " ".toList r
  let (ampm, r) ←
    match dropLit "a.m.".toList r with
    | some r' => some ("a.m.", r')
    | none => (dropLit "p.m.".toList r).map (fun r' => ("p.m.", r'))
  let r ← dropLit " - ".toList r
  let p := r.span (fun c => c ≠ ':')
  if p.1 = [] then none else do
  let r ← dropLit ": ".toList p.2
  if r = [] then none else
  pure (⟨day⟩ ++ "/" ++ ⟨mon⟩ ++ "/" ++ ⟨yr⟩, ⟨hh⟩ ++ ":" ++ ⟨mm⟩,
    ampm, ⟨p.1⟩, ⟨r⟩)

/-- The 12-hour → 24-hour conversion inside `_parse_whatsapp_timestamp`. -/
def convert24 (ampm : String) (hour : Nat) : Nat :=
  if ampm = "p.m." ∧ hour ≠ 12 then hour + 12
  else if ampm = "a.m." ∧ hour = 12 then 0
  else hour

/-- `WhatsAppTextProcessor._parse_whatsapp_timestamp`: re-split the date on
`/` and the time on `:`, convert with the meridiem rule and build a
`datetime`; any `ValueError`/`IndexError` takes the `datetime.now()` fallback,
modelled as `none`. -/
def parseWhatsAppTimestamp (date_str time_str ampm : String) :
    Option PyDateTime := do
  let dparts := splitChar '/' date_str.toList
  let tparts := splitChar ':' time_str.toList
  let day ← (← dparts.get? 0) |> pyInt?
  let mon ← (← dparts.get? 1) |> pyInt?
  let yr ← (← dparts.get? 2) |> pyInt?
  let hh ← (← tparts.get? 0) |> pyInt?
  let mi ← (← tparts.get? 1) |> pyInt?
  mkDatetime? yr mon day (convert24 ampm hh) mi 0 0

/-- The accumulation loop of `parse_whatsapp_format` over the (0-based
indexed) raw lines, carrying the message under construction. -/
def parseLoop : List (Nat × String) → Option Message → List Message
  | [], cur => cur.toList
  | (i, raw) :: rest, cur =>
    let line := pyStrip raw
    if line = "" then parseLoop rest cur
    else
      match matchHeader line with
      | some (ds, ts, ampm, snd, cont) =>
        let m : Message :=
          { timestamp := parseWhatsAppTimestamp ds ts ampm
            date_str := ds
            time_str := ts ++ " " ++ ampm
            sender := snd
            content := cont
            line_number := i + 1
            original_line := line }
        cur.toList ++ parseLoop rest (some m)
      | none =>
        match cur with
        | some pm =>
          parseLoop rest (some { pm with content := pm.content ++ " " ++ line })
        | none => parseLoop rest none

/-- `WhatsAppTextProcessor.parse_whatsapp_format` on the loaded line buffer. -/
def parse_whatsapp_format (lines : List String) : List Message :=
  parseLoop lines.enum none

/-- The placeholder WhatsApp leaves for an attachment,
`f"{audio_filename} (archivo adjunto)"`. -/
def placeholderOf (filename : String) : String :=
  filename ++ " (archivo adjunto)"

/-- The scan-and-replace loop of `insert_transcription`: first line containing
the pattern has **all** its occurrences replaced (`str.replace`), the scan
stops there; no match leaves the buffer unchanged. -/
def scanReplace (pat repl : String) : List String → Bool × List String
  | [] => (false, [])
  | l :: rest =>
    if pyIn pat l then (true, pyReplace l pat repl :: rest)
    else
      let p := scanReplace pat repl rest
      (p.1, l :: p.2)

/-- `WhatsAppTextProcessor.insert_transcription`: guard against a missing or
empty (falsy) filename, then scan-and-replace the placeholder with the
transcription text.  The `timestamp` and `sender` arguments are kept for
compatibility and unused, as in the source; saving the file to disk is
outside the model. -/
def insert_transcription (lines : List String) (transcription_text : String)
    (_timestamp : Option PyDateTime) (_sender : String)
    (audio_filename : Option String) : Bool × List String :=
  match audio_filename with
  | none => (false, lines)
  | some fn =>
    if fn = "" then (false, lines)
    else scanReplace (placeholderOf fn) transcription_text lines

/-- One entry of the `transcriptions` list fed to
`insert_multiple_transcriptions`. -/
structure InsertItem where
  text : String
  timestamp : PyDateTime
  sender : String
  audio_file : String
  audio_filename : String
  language : String
deriving Repr, DecidableEq

/-- The insertion loop of `insert_multiple_transcriptions` over the already
sorted list: count the successful replacements (`timestamp` is a real
`datetime`, hence always truthy, so only `text` gates the attempt). -/
def insertLoop : List InsertItem → List String → Nat × List String
  | [], lines => (0, lines)
  | tr :: rest, lines =>
    if tr.text ≠ "" then
      let p := insert_transcription lines tr.text (some tr.timestamp)
        tr.sender (some tr.audio_filename)
      let q := insertLoop rest p.2
      ((if p.1 then 1 else 0) + q.1, q.2)
    else insertLoop rest lines

/-- `WhatsAppTextProcessor.insert_multiple_transcriptions`: stable-sort by
timestamp, then insert one by one, returning the success count and the final
buffer. -/
def insert_multiple_transcriptions (lines : List String)
    (transcriptions : List InsertItem) : Nat × List String :=
  insertLoop
    (List.insertionSort (fun a b => a.timestamp.key ≤ b.timestamp.key)
      transcriptions)
    lines

end WhatsAppTextProcessor

/-! ### `image_processor.py` — the insertion loop -/

namespace ImageProcessor

/-- Zero-pad a number to `w` digits (`strftime` field). -/
def padNum (w n : Nat) : String :=
  let s := toString n
  ⟨List.replicate (w - s.length) '0'⟩ ++ s

/-- `ImageProcessor.create_image_reference` for an image that has a
timestamp: `[DD/MM/YYYY, HH:MM:SS] Sender: [Imagen: name]`. -/
def create_image_reference (imageName : String) (t : PyDateTime)
    (sender : String) : String :=
  "[" ++ padNum 2 t.day ++ "/" ++ padNum 2 t.month ++ "/" ++ padNum 4 t.year
    ++ ", " ++ padNum 2 t.hour ++ ":" ++ padNum 2 t.minute ++ ":"
    ++ padNum 2 t.second ++ "] " ++ sender ++ ": [Imagen: " ++ imageName ++ "]"

/-- The per-image loop of `process_images_for_text_file`: an image with a
timestamp builds its reference and calls
`insert_transcription(f"[Imagen: {name}]", timestamp, "Imagen")` — note the
source passes no `audio_filename` argument, so the call is made with that
parameter at its default `None`; an image without a timestamp is only
logged. -/
def imageLoop : List (String × Option PyDateTime) → List String →
    Nat × List String
  | [], lines => (0, lines)
  | (name, ots) :: rest, lines =>
    match ots with
    | some t =>
      let _image_reference := create_image_reference name t "Imagen"
      let p := WhatsAppTextProcessor.insert_transcription lines
        ("[Imagen: " ++ name ++ "]") (some t) "Imagen" none
      let q := imageLoop rest p.2
      ((if p.1 then 1 else 0) + q.1, q.2)
    | none => imageLoop rest lines

/-- `ImageProcessor.process_images_for_text_file`: run the loop over the
sorted images, returning the processed count and the buffer. -/
def process_images_for_text_file (dir : List String) (lines : List String) :
    Nat × List String :=
  imageLoop (get_images_with_timestamps dir) lines

end ImageProcessor

/-! ### `whisper_transcriber.py` — `WhisperTranscriber` -/

/-- The record `transcribe_audio` returns (the fields the callers read).
`error = none` means the transcription succeeded. -/
structure TResult where
  text : String
  language : String := "unknown"
  error : Option String := none
deriving Repr, DecidableEq

/-- `WhisperTranscriber.transcribe_multiple` with the per-file API call as an
oracle: every input path is keyed to its result; per-file failures are
already result records (the source catches everything), so the batch always
completes. -/
def transcribe_multiple (audio_files : List String)
    (transcribe : String → TResult) : List (String × TResult) :=
  audio_files.map fun p => (p, transcribe p)

/-! ### `conversation_processor.py` — `ConversationProcessor` -/

namespace ConversationProcessor

open WhatsAppTextProcessor TimestampParser

/-- The result dict of `process_audio_files` (and of `ProcessingJob.process`).
Keys that a branch does not set are `none` / `[]`. -/
structure ResultDict where
  success : Bool
  message : Option String := none
  error : Option String := none
  total_audio_files : Option Nat := none
  successful_transcriptions : Option Nat := none
  inserted_transcriptions : Option Nat := none
  transcriptions : List InsertItem := []
deriving Repr, DecidableEq

/-- The selection loop of `process_audio_files`: walk the enumerated audio
files in order, keep those whose transcription has no `error` key and a
non-empty text, and count them. -/
def buildInserts (awt : List (String × PyDateTime))
    (tmap : List (String × TResult)) : List InsertItem × Nat :=
  match awt with
  | [] => ([], 0)
  | (fp, ts) :: rest =>
    let p := buildInserts rest tmap
    match tmap.lookup fp with
    | some td =>
      if td.error = none ∧ td.text ≠ "" then
        ({ text := td.text, timestamp := ts, sender := "Transcripción de Audio"
           audio_file := fp, audio_filename := pathName fp
           language := td.language } :: p.1, p.2 + 1)
      else p
    | none => p

/-- `ConversationProcessor.process_audio_files`: enumerate audio attachments,
transcribe them through the oracle, select the usable transcriptions, insert
them, and report the counts; no usable transcription is a failure result. -/
def process_audio_files (dir : List String) (transcribe : String → TResult)
    (lines : List String) : ResultDict × List String :=
  let awt := get_audio_files_with_timestamps dir
  if awt = [] then
    ({ success := false, message := some "No se encontraron archivos de audio" },
      lines)
  else
    let tmap := transcribe_multiple (awt.map Prod.fst) transcribe
    let sel := buildInserts awt tmap
    if sel.1 ≠ [] then
      let ins := insert_multiple_transcriptions lines sel.1
      ({ success := true
         total_audio_files := some awt.length
         successful_transcriptions := some sel.2
         inserted_transcriptions := some ins.1
         transcriptions := sel.1 }, ins.2)
    else
      ({ success := false
         message := some "Error en el procesamiento de transcripciones" }, lines)

end ConversationProcessor

/-! ### `processing_job.py` — `ProcessingJob`

The three phases wrap filesystem- and network-bound helpers
(`main.preprocess_single_zip`, the `ConversationProcessor` construction and
run, `main.postprocess_single_zip`); those helpers are modelled by a
`JobEnv` of `Except`-valued outcomes, where `.error e` is the helper raising
an exception with message `e`.  Wall-clock timestamps and the float
`progress` field are not modelled; every `self.status = ...` assignment is
additionally recorded in `statusTrace` so that state transitions can be
observed. -/

namespace ProcessingJob

open ConversationProcessor

/-- The `status` strings of a job. -/
inductive JStatus where
  | pending
  | preprocessing
  | processing
  | postprocessing
  | completed
  | failed
  | cancelled
deriving Repr, DecidableEq

/-- The mutable fields of a `ProcessingJob` that the claims observe, plus the
trace of every status assignment made so far. -/
structure JobState where
  job_id : String
  zip_name : String
  final_output_path : String
  status : JStatus
  error : Option String
  result : Option ResultDict
  statusTrace : List JStatus
deriving Repr, DecidableEq

/-- A freshly constructed job (`__init__`: status `pending`, no error, no
result). -/
def mkJob (job_id zip_name final_output_path : String) : JobState :=
  { job_id, zip_name, final_output_path, status := .pending, error := none
    result := none, statusTrace := [.pending] }

/-- Record a `self.status = ...` assignment. -/
def setStatus (s : JobState) (st : JStatus) : JobState :=
  { s with status := st, statusTrace := s.statusTrace ++ [st] }

/-- Outcomes of the external helpers a job run invokes, in program order.
`.error e` models the helper raising an exception whose `str` is `e`. -/
structure JobEnv where
  preprocessResult : Except String Bool
  textLoadResult : Except String Unit
  validateResult : Bool × List String
  audioResult : Except String ResultDict
  postprocessResult : Except String Bool

/-- `ProcessingJob.preprocess`: set status, call
`main.preprocess_single_zip`; a `False` return raises, and the surrounding
`except` turns any exception into status `failed` with a prefixed error. -/
def preprocess (env : JobEnv) (s : JobState) : JobState × Bool :=
  let s := setStatus s .preprocessing
  let body : Except String Bool := do
    let success ← env.preprocessResult
    if success then pure true
    else throw "preprocess_single_zip returned False"
  match body with
  | .ok _ => (s, true)
  | .error e =>
    ({ setStatus s .failed with
        error := some ("Error en preprocesamiento: " ++ e) }, false)

/-- `ProcessingJob.process`: set status, construct the
`ConversationProcessor` (which loads the transcript and re-raises on
failure), validate inputs (an invalid input raises `ValueError`), then run
`process_audio_files`; an exception sets status `failed` and returns a
`{success: False, error}` dict, while a returned dict — successful or not —
leaves the status at `processing`. -/
def process (env : JobEnv) (s : JobState) : JobState × ResultDict :=
  let s := setStatus s .processing
  let body : Except String ResultDict := do
    let _ ← env.textLoadResult
    let (is_valid, errors) := env.validateResult
    if ¬ is_valid then
      throw ("Validación fallida: " ++ String.intercalate "; " errors)
    env.audioResult
  match body with
  | .ok result => ({ s with result := some result }, result)
  | .error e =>
    ({ setStatus s .failed with
        error := some ("Error en procesamiento: " ++ e) },
      { success := false, error := some e })

/-- `ProcessingJob.postprocess`: set status, call
`main.postprocess_single_zip`; success completes the job, any exception
(including a `False` return) fails it. -/
def postprocess (env : JobEnv) (s : JobState) : JobState × Bool :=
  let s := setStatus s .postprocessing
  let body : Except String Bool := do
    let success ← env.postprocessResult
    if success then pure true
    else throw "postprocess_single_zip returned False"
  match body with
  | .ok _ => (setStatus s .completed, true)
  | .error e =>
    ({ setStatus s .failed with
        error := some ("Error en postprocesamiento: " ++ e) }, false)

/-- Python's `a or b` for an optional string and a default (falsy = `None`
or empty). -/
def pyOrDefault (a : Option String) (b : String) : String :=
  match a with
  | some x => if x = "" then b else x
  | none => b

/-- The dict `run_complete_processing` returns. -/
structure RunResult where
  success : Bool
  job_id : String
  error : Option String := none
  zip_name : Option String := none
  output_file : Option String := none
  processing_result : Option ResultDict := none
deriving Repr, DecidableEq

/-- `ProcessingJob.run_complete_processing`: the three phases in order, each
failure short-circuiting into a `{success: False, error, job_id}` dict; the
phases convert their own exceptions, so the surrounding `try` has nothing
left to catch and every outcome is a result record. -/
def run_complete_processing (env : JobEnv) (s : JobState) :
    JobState × RunResult :=
  let p1 := preprocess env s
  if ¬ p1.2 then
    (p1.1, { success := false, error := p1.1.error, job_id := p1.1.job_id })
  else
    let p2 := process env p1.1
    if ¬ p2.2.success then
      (p2.1, { success := false
               error := some (pyOrDefault p2.1.error "Error en procesamiento")
               job_id := p2.1.job_id })
    else
      let p3 := postprocess env p2.1
      if ¬ p3.2 then
        (p3.1, { success := false, error := p3.1.error, job_id := p3.1.job_id })
      else
        (p3.1, { success := true
                 job_id := p3.1.job_id
                 zip_name := some p3.1.zip_name
                 output_file := some p3.1.final_output_path
                 processing_result := some p2.2 })

end ProcessingJob

/-! ### `multi_file_processor.py` — `MultiFileProcessor` -/

namespace MultiFileProcessor

open ProcessingJob

/-- `MultiFileProcessor.cancel_job`: cancel only a still-pending job. -/
def cancel_job (s : JobState) : JobState × Bool :=
  if s.status = .pending then (setStatus s .cancelled, true)
  else (s, false)

/-- The registry entry for one submitted job: its id together with the
outcome of its worker thread — `.ok r` when `run_complete_processing`
returned `r`, `.error e` when the execution raised `e` (so that
`future.result()` re-raises). -/
abbrev JobRun := String × Except String RunResult

/-- `MultiFileProcessor.process_all_jobs`: dispatch every registered job and
collect one result per job id; a raising job is recorded under its id with a
synthesized `{success: False, error, job_id}` record.  The result dict is
keyed by job id, so the completion order of the workers does not affect it
and the registry order is used. -/
def process_all_jobs (jobs : List JobRun) : List (String × RunResult) :=
  if jobs.isEmpty then []
  else
    jobs.map fun p =>
      (p.1, match p.2 with
        | .ok r => r
        | .error e => { success := false, error := some e, job_id := p.1 })

end MultiFileProcessor

/-! ### Reading of the spec's replacement contract, for comparison

The spec says the replacement touches "only that matched substring"; the
following definition renders that reading (replace only the first occurrence
in the line) so it can be compared with the source's `str.replace`. -/

/-- Modelled from the spec: replace only the first (leftmost) occurrence of
the pattern in a line, leaving the rest of the line unchanged. -/
def replaceFirstChars (pat repl : List Char) : List Char → List Char
  | [] => []
  | c :: rest =>
    if pat ≠ [] ∧ pat.isPrefixOf (c :: rest) then
      repl ++ (c :: rest).drop pat.length
    else c :: replaceFirstChars pat repl rest

/-- Modelled from the spec: string-level first-occurrence-only replacement. -/
def replaceFirstOcc (s pat repl : String) : String :=
  ⟨replaceFirstChars pat.toList repl.toList s.toList⟩

/-! ### The claimed transition policy for job states -/

namespace ProcessingJob

/-- Position of a status along the claimed forward chain
`pending → preprocessing → processing → postprocessing → completed`. -/
def stageIdx : JStatus → Option Nat
  | .pending => some 0
  | .preprocessing => some 1
  | .processing => some 2
  | .postprocessing => some 3
  | .completed => some 4
  | _ => none

/-- Terminal statuses. -/
def isTerminal : JStatus → Bool
  | .completed => true
  | .failed => true
  | .cancelled => true
  | _ => false

/-- The transition policy the claim states: forward along the chain, or a
jump to `failed` from a non-terminal state, or `pending → cancelled`. -/
def allowedStep (a b : JStatus) : Bool :=
  (match stageIdx a, stageIdx b with
   | some i, some j => decide (i < j)
   | _, _ => false)
  || (match b with
      | .failed => !(isTerminal a)
      | _ => false)
  || (match a, b with
      | .pending, .cancelled => true
      | _, _ => false)

end ProcessingJob

/-! ### Lemmas about the scan-and-replace loop -/

namespace WhatsAppTextProcessor

theorem scanReplace_of_no_match {pat repl : String} :
    ∀ {lines : List String}, (∀ l ∈ lines, pyIn pat l = false) →
      scanReplace pat repl lines = (false, lines)
  | [], _ => rfl
  | l :: rest, h => by
    have hl : pyIn pat l = false := h l (List.mem_cons_self l rest)
    have ih := @scanReplace_of_no_match pat repl rest
      (fun x hx => h x (List.mem_cons_of_mem l hx))
    simp [scanReplace, hl, ih]

theorem scanReplace_first_match {pat repl : String} :
    ∀ {pre : List String} {l : String} {post : List String},
      (∀ l' ∈ pre, pyIn pat l' = false) → pyIn pat l = true →
      scanReplace pat repl (pre ++ l :: post) =
        (true, pre ++ pyReplace l pat repl :: post)
  | [], l, post, _, hl => by simp [scanReplace, hl]
  | p :: pre, l, post, hpre, hl => by
    have hp : pyIn pat p = false := hpre p (List.mem_cons_self p pre)
    have ih := @scanReplace_first_match pat repl pre l post
      (fun x hx => hpre x (List.mem_cons_of_mem p hx)) hl
    simp [scanReplace, hp, ih]

end WhatsAppTextProcessor

/-! ### Claim theorems -/

open WhatsAppTextProcessor TimestampParser ImageProcessor ConversationProcessor
  ProcessingJob MultiFileProcessor

/-- C1 counterexample.  The claim says the replacement touches "only that
matched substring, leaving the rest of that line … unchanged" and that it
"returns true" whenever some line contains the placeholder, for *every*
filename.  Both parts fail on the code: (a) `str.replace` rewrites **every**
occurrence of the placeholder inside the first containing line, so on a line
holding the placeholder twice the rest of the line is not preserved (the
spec's first-occurrence-only reading would leave the second copy intact);
(b) for the empty filename the guard `if not audio_filename` returns `False`
without scanning, even though a line contains the empty filename's
placeholder. -/
theorem C1_counterexample :
    insert_transcription ["a (archivo adjunto)|a (archivo adjunto)"] "T"
        none "S" (some "a") = (true, ["T|T"])
    ∧ replaceFirstOcc "a (archivo adjunto)|a (archivo adjunto)"
        (placeholderOf "a") "T" = "T|a (archivo adjunto)"
    ∧ ("T|T" : String) ≠ "T|a (archivo adjunto)"
    ∧ insert_transcription [" (archivo adjunto)"] "T" none "S" (some "") =
        (false, [" (archivo adjunto)"])
    ∧ pyIn (placeholderOf "") " (archivo adjunto)" = true := by
  refine ⟨by decide, by decide, by decide, by decide, by decide⟩

/-- C1 (amended).  For every non-empty filename: the scan visits the raw
lines in order; if no line contains the placeholder the call returns false
and the buffer is unchanged, and otherwise the first containing line has all
occurrences of the placeholder replaced by the transcription text, every
other line staying untouched, and the call returns true. -/
theorem C1_replace_placeholder (fn text : String) (ts : Option PyDateTime)
    (sender : String) (h : fn ≠ "") :
    (∀ lines : List String, (∀ l ∈ lines, pyIn (placeholderOf fn) l = false) →
      insert_transcription lines text ts sender (some fn) = (false, lines))
    ∧ (∀ (pre : List String) (l : String) (post : List String),
        (∀ l' ∈ pre, pyIn (placeholderOf fn) l' = false) →
        pyIn (placeholderOf fn) l = true →
        insert_transcription (pre ++ l :: post) text ts sender (some fn) =
          (true, pre ++ pyReplace l (placeholderOf fn) text :: post)) := by
  constructor
  · intro lines hnone
    simp [insert_transcription, h, scanReplace_of_no_match hnone]
  · intro pre l post hpre hl
    simp [insert_transcription, h, scanReplace_first_match hpre hl]

/-- C1 witness: a concrete run of the amended theorem — placeholder in the
second line, first and third untouched, call returns true. -/
theorem C1_replace_placeholder_witness :
    insert_transcription ["x", "a (archivo adjunto) y", "z"] "T" none "S"
      (some "a") = (true, ["x", "T y", "z"]) := by
  have h := (C1_replace_placeholder "a" "T" none "S" (by decide)).2
    ["x"] "a (archivo adjunto) y" ["z"] (by decide) (by decide)
  simpa using h

/-- C9 counterexample.  The claim says a second call with the same filename
always returns false and changes nothing; but the first call replaces only
the *first* containing line, so when a second line also contains the
placeholder the second call finds it, returns true and rewrites the buffer
again. -/
theorem C9_counterexample :
    insert_transcription ["a (archivo adjunto)", "a (archivo adjunto)"] "T"
        none "S" (some "a") = (true, ["T", "a (archivo adjunto)"])
    ∧ insert_transcription ["T", "a (archivo adjunto)"] "T" none "S"
        (some "a") = (true, ["T", "T"]) := by
  exact ⟨by decide, by decide⟩

/-- C9 (amended).  If after a first replacement for a filename no line of
the updated buffer contains that filename's placeholder any more (which is
the case when the placeholder occurred in a single line and the spliced text
did not reintroduce it), then a second call with the same filename returns
false and leaves the buffer exactly as the first call left it. -/
theorem C9_idempotent_splice (text : String) (ts : Option PyDateTime)
    (sender fn : String) (lines : List String)
    (h : ∀ l ∈ (insert_transcription lines text ts sender (some fn)).2,
      pyIn (placeholderOf fn) l = false) :
    insert_transcription
        ((insert_transcription lines text ts sender (some fn)).2) text ts
        sender (some fn) =
      (false, (insert_transcription lines text ts sender (some fn)).2) := by
  by_cases hfn : fn = ""
  · subst hfn; simp [insert_transcription]
  · have h' : ∀ l ∈ (scanReplace (placeholderOf fn) text lines).2,
        pyIn (placeholderOf fn) l = false := by
      simpa [insert_transcription, hfn] using h
    simp [insert_transcription, hfn, scanReplace_of_no_match h']

/-- C9 witness: after splicing into a one-placeholder buffer the second call
is a no-op returning false. -/
theorem C9_idempotent_splice_witness :
    insert_transcription
        ((insert_transcription ["x a (archivo adjunto) y"] "T" none "S"
          (some "a")).2) "T" none "S" (some "a") =
      (false, (insert_transcription ["x a (archivo adjunto) y"] "T" none "S"
        (some "a")).2) :=
  C9_idempotent_splice "T" none "S" "a" ["x a (archivo adjunto) y"] (by decide)

/-- An image insertion call never succeeds: the source omits the
`audio_filename` argument, so `insert_transcription` hits its missing-name
guard at once. -/
theorem imageLoop_inserts_nothing :
    ∀ (imgs : List (String × Option PyDateTime)) (lines : List String),
      imageLoop imgs lines = (0, lines)
  | [], _ => rfl
  | (name, some t) :: rest, lines => by
    simp [imageLoop, insert_transcription, imageLoop_inserts_nothing rest lines]
  | (name, none) :: rest, lines => by
    simp [imageLoop, imageLoop_inserts_nothing rest lines]

/-- C5 (code bug).  The claim (and the source's own docstrings) say each
image with an extractable timestamp is turned into a reference and spliced
into the transcript via placeholder replacement.  The code never passes the
`audio_filename` argument to `insert_transcription`, whose missing-name
guard then returns `False` immediately, so *no* image is ever inserted and
the reported count is always 0 — shown here both in general and on a
concrete image whose timestamp extracts fine and whose placeholder is
present in the buffer. -/
theorem C5_image_insertion_is_dead :
    (∀ (dir lines : List String),
      process_images_for_text_file dir lines = (0, lines))
    ∧ extract_timestamp_from_filename "IMG-20231215-WA0001.jpg" =
        some ⟨2023, 12, 15, 0, 0, 0, 0⟩
    ∧ pyIn (placeholderOf "IMG-20231215-WA0001.jpg")
        "IMG-20231215-WA0001.jpg (archivo adjunto)" = true
    ∧ process_images_for_text_file ["IMG-20231215-WA0001.jpg"]
        ["IMG-20231215-WA0001.jpg (archivo adjunto)"] =
        (0, ["IMG-20231215-WA0001.jpg (archivo adjunto)"]) := by
  refine ⟨fun dir lines => imageLoop_inserts_nothing _ _, by decide, by decide,
    imageLoop_inserts_nothing _ _⟩

/-! ### Lemmas about the stable key-based sort -/

theorem pairwise_insertionSort_key {α : Type} (k : α → Nat) (l : List α) :
    (List.insertionSort (fun a b => k a ≤ k b) l).Pairwise
      (fun a b => k a ≤ k b) := by
  haveI : IsTotal α (fun a b => k a ≤ k b) :=
    ⟨fun a b => Nat.le_total (k a) (k b)⟩
  haveI : IsTrans α (fun a b => k a ≤ k b) :=
    ⟨fun _ _ _ h1 h2 => Nat.le_trans h1 h2⟩
  exact List.sorted_insertionSort _ l

theorem filter_orderedInsert {α : Type} (k : α → Nat) (t : Nat) (x : α) :
    ∀ l : List α,
      (List.orderedInsert (fun a b => k a ≤ k b) x l).filter
          (fun a => k a == t) =
        if k x = t then x :: l.filter (fun a => k a == t)
        else l.filter (fun a => k a == t)
  | [] => by
    by_cases h : k x = t <;> simp [List.orderedInsert, h]
  | b :: l => by
    simp only [List.orderedInsert]
    by_cases hle : k x ≤ k b
    · rw [if_pos hle]
      by_cases h : k x = t <;> simp [List.filter_cons, h]
    · rw [if_neg hle]
      have hlt : k b < k x := Nat.lt_of_not_le hle
      have ih := filter_orderedInsert k t x l
      by_cases h : k x = t
      · have hb : (k b == t) = false := by
          simp only [beq_eq_false_iff_ne, ne_eq]
          omega
        simp [List.filter_cons, hb, ih, h]
      · simp [List.filter_cons, ih, h]

theorem filter_insertionSort_key {α : Type} (k : α → Nat) (t : Nat) :
    ∀ l : List α,
      (List.insertionSort (fun a b => k a ≤ k b) l).filter
          (fun a => k a == t) =
        l.filter (fun a => k a == t)
  | [] => rfl
  | x :: l => by
    have ih := filter_insertionSort_key k t l
    by_cases h : k x = t <;>
      simp [List.insertionSort, filter_orderedInsert, ih, h, List.filter_cons]

/-! ### Validity bounds for extracted timestamps -/

theorem daysInMonth_le (y m : Nat) : daysInMonth y m ≤ 31 := by
  rcases m with _ | _ | _ | _ | _ | _ | _ | _ | _ | _ | _ | _ | _ | m <;>
    simp [daysInMonth] <;> split <;> omega

theorem mkDatetime?_key_lt {y mo d h mi s : Nat} {t : PyDateTime}
    (hmk : mkDatetime? y mo d h mi s 0 = some t) :
    t.key < datetimeMax.key := by
  unfold mkDatetime? at hmk
  split at hmk
  · rename_i hcond
    obtain ⟨h1, h2, h3, h4, h5, h6, h7, h8, h9, -⟩ := hcond
    have hd : d ≤ 31 := le_trans h6 (daysInMonth_le y mo)
    cases hmk
    simp only [PyDateTime.key, datetimeMax]
    omega
  · exact absurd hmk (by simp)

theorem strptimeYmd_key_lt {d8 : List Char} {t : PyDateTime}
    (h : strptimeYmd d8 = some t) : t.key < datetimeMax.key := by
  unfold strptimeYmd at h
  cases hy : pyInt? (d8.take 4) <;> rw [hy] at h
  · exact absurd h (by simp)
  cases hmo : pyInt? ((d8.drop 4).take 2) <;> rw [hmo] at h
  · exact absurd h (by simp)
  cases hd : pyInt? ((d8.drop 6).take 2) <;> rw [hd] at h
  · exact absurd h (by simp)
  exact mkDatetime?_key_lt h

theorem tryPatternYmdHms_key_lt {stem : List Char} {t : PyDateTime}
    (h : ImageProcessor.tryPatternYmdHms stem = some t) :
    t.key < datetimeMax.key := by
  unfold ImageProcessor.tryPatternYmdHms at h
  split at h
  · exact mkDatetime?_key_lt h
  · exact absurd h (by simp)

theorem tryPatternImgUnderscore_key_lt {stem : List Char} {t : PyDateTime}
    (h : ImageProcessor.tryPatternImgUnderscore stem = some t) :
    t.key < datetimeMax.key := by
  unfold ImageProcessor.tryPatternImgUnderscore at h
  repeat' split at h
  all_goals first
    | exact tryPatternYmdHms_key_lt h
    | (rename_i heq
       cases h
       exact strptimeYmd_key_lt heq)

theorem extract_img_key_lt {f : String} {t : PyDateTime}
    (h : ImageProcessor.extract_timestamp_from_filename f = some t) :
    t.key < datetimeMax.key := by
  unfold ImageProcessor.extract_timestamp_from_filename at h
  dsimp only at h
  cases hsearch : searchOpt matchImgDash (pathStem f).toList with
  | none =>
    rw [hsearch] at h
    exact tryPatternImgUnderscore_key_lt h
  | some p =>
    obtain ⟨d8, w⟩ := p
    rw [hsearch] at h
    dsimp only at h
    cases hs : strptimeYmd d8 with
    | some t' =>
      rw [hs] at h
      cases h
      exact strptimeYmd_key_lt hs
    | none =>
      rw [hs] at h
      exact tryPatternImgUnderscore_key_lt h

/-- C6 counterexample.  The claim says that files whose name yields no
timestamp are "placed last rather than omitted"; but the audio enumeration
(`get_audio_files_with_timestamps`) appends a file only when a timestamp was
extracted, so `a.opus` — an `.opus` file matching the extension filter but
without an extractable timestamp — is dropped entirely. -/
theorem C6_counterexample :
    TimestampParser.is_audio_file "a.opus" = true
    ∧ TimestampParser.extract_timestamp "a.opus" = none
    ∧ get_audio_files_with_timestamps ["a.opus"] = [] := by
  exact ⟨by decide, by decide, by decide⟩

/-- C6 (amended).  Audio enumeration returns exactly the `.opus` files with
an extractable timestamp (files without one are omitted, not placed last),
sorted ascending by timestamp with a stable sort (equal timestamps keep
listing order, stated as preservation of every equal-key subsequence);
image enumeration returns all supported images, sorted ascending with
missing timestamps keyed as `datetime.max` and hence placed last, again
stably. -/
theorem C6_sorted_enumeration (dir : List String) :
    ((get_audio_files_with_timestamps dir).Pairwise
      (fun a b => a.2.key ≤ b.2.key))
    ∧ (get_audio_files_with_timestamps dir).Perm (TimestampParser.eligibleAudio dir)
    ∧ (∀ f t, (f, t) ∈ get_audio_files_with_timestamps dir ↔
        f ∈ dir ∧ TimestampParser.is_audio_file f = true
          ∧ TimestampParser.extract_timestamp f = some t)
    ∧ (∀ t : Nat, (get_audio_files_with_timestamps dir).filter
          (fun p => p.2.key == t) =
        (TimestampParser.eligibleAudio dir).filter (fun p => p.2.key == t))
    ∧ ((get_images_with_timestamps dir).Pairwise
        (fun a b => (a.2.getD datetimeMax).key ≤ (b.2.getD datetimeMax).key))
    ∧ (get_images_with_timestamps dir).Perm
        ((get_image_files dir).map fun f =>
          (f, ImageProcessor.extract_timestamp_from_filename f))
    ∧ (∀ f o, (f, o) ∈ get_images_with_timestamps dir ↔
        f ∈ get_image_files dir
          ∧ o = ImageProcessor.extract_timestamp_from_filename f)
    ∧ ((get_images_with_timestamps dir).Pairwise
        (fun a b => a.2 = none → b.2 = none))
    ∧ (∀ t : Nat, (get_images_with_timestamps dir).filter
          (fun p => (p.2.getD datetimeMax).key == t) =
        ((get_image_files dir).map fun f =>
          (f, ImageProcessor.extract_timestamp_from_filename f)).filter
          (fun p => (p.2.getD datetimeMax).key == t)) := by
  have hmemA : ∀ f t, (f, t) ∈ get_audio_files_with_timestamps dir ↔
      f ∈ dir ∧ TimestampParser.is_audio_file f = true
        ∧ TimestampParser.extract_timestamp f = some t := by
    intro f t
    rw [get_audio_files_with_timestamps, List.mem_insertionSort]
    constructor
    · intro hm
      obtain ⟨a, ha, hopt⟩ := List.mem_filterMap.mp hm
      by_cases hau : TimestampParser.is_audio_file a
      · simp only [hau, if_true, Option.map_eq_some'] at hopt
        obtain ⟨t', ht', heq⟩ := hopt
        rw [Prod.mk.injEq] at heq
        obtain ⟨rfl, rfl⟩ := heq
        exact ⟨ha, hau, ht'⟩
      · simp [hau] at hopt
    · rintro ⟨hf, hau, hex⟩
      exact List.mem_filterMap.mpr ⟨f, hf, by simp [hau, hex]⟩
  have hmemI : ∀ f o, (f, o) ∈ get_images_with_timestamps dir ↔
      f ∈ get_image_files dir
        ∧ o = ImageProcessor.extract_timestamp_from_filename f := by
    intro f o
    rw [get_images_with_timestamps, List.mem_insertionSort]
    constructor
    · intro hm
      obtain ⟨a, ha, heq⟩ := List.mem_map.mp hm
      rw [Prod.mk.injEq] at heq
      obtain ⟨rfl, rfl⟩ := heq
      exact ⟨ha, rfl⟩
    · rintro ⟨hf, rfl⟩
      exact List.mem_map.mpr ⟨f, hf, rfl⟩
  refine ⟨pairwise_insertionSort_key
      (fun p : String × PyDateTime => p.2.key) _,
    List.perm_insertionSort _ _, hmemA,
    fun t => filter_insertionSort_key
      (fun p : String × PyDateTime => p.2.key) t _,
    pairwise_insertionSort_key
      (fun p : String × Option PyDateTime => (p.2.getD datetimeMax).key) _,
    List.perm_insertionSort _ _, hmemI, ?_,
    fun t => filter_insertionSort_key
      (fun p : String × Option PyDateTime => (p.2.getD datetimeMax).key) t _⟩
  refine (pairwise_insertionSort_key
    (fun p : String × Option PyDateTime => (p.2.getD datetimeMax).key)
    _).imp_of_mem ?_
  intro a b ha hb hle hnone
  cases hbo : b.2 with
  | none => rfl
  | some tb =>
    have hbm := (hmemI b.1 b.2).mp hb
    have htb : ImageProcessor.extract_timestamp_from_filename b.1 = some tb :=
      hbo ▸ hbm.2.symm
    have hlt : tb.key < datetimeMax.key := extract_img_key_lt htb
    rw [hnone, hbo] at hle
    simp only [Option.getD_none, Option.getD_some] at hle
    omega

/-- C8.  Parsing the two sample header lines yields exactly the claimed
messages (sender, content, 24-hour timestamp), and the meridiem conversion
of `_parse_whatsapp_timestamp` follows the claimed rule: p.m. adds 12 except
for 12 p.m., and 12 a.m. maps to hour 0. -/
theorem C8_locale_timestamp :
    parse_whatsapp_format ["12/6/2025, 3:15 p.m. - Robert: hello"] =
      [{ timestamp := some ⟨2025, 6, 12, 15, 15, 0, 0⟩
         date_str := "12/6/2025", time_str := "3:15 p.m."
         sender := "Robert", content := "hello", line_number := 1
         original_line := "12/6/2025, 3:15 p.m. - Robert: hello" }]
    ∧ parse_whatsapp_format ["13/6/2025, 7:21 a.m. - X: y"] =
      [{ timestamp := some ⟨2025, 6, 13, 7, 21, 0, 0⟩
         date_str := "13/6/2025", time_str := "7:21 a.m."
         sender := "X", content := "y", line_number := 1
         original_line := "13/6/2025, 7:21 a.m. - X: y" }]
    ∧ (∀ h : Nat, convert24 "p.m." h = if h = 12 then 12 else h + 12)
    ∧ (∀ h : Nat, convert24 "a.m." h = if h = 12 then 0 else h) := by
  refine ⟨by decide, by decide, fun h => ?_, fun h => ?_⟩
  · by_cases h12 : h = 12 <;> simp [convert24, h12]
  · by_cases h12 : h = 12 <;> simp [convert24, h12]

theorem append_ne_empty_left (a b : String) (h : a ≠ "") : a ++ b ≠ "" := by
  intro hc
  apply h
  have h2 := congrArg String.data hc
  rw [String.data_append] at h2
  obtain ⟨h3, -⟩ := List.append_eq_nil.mp h2
  cases a
  simp_all

theorem pyOrDefault_some_ne {x : String} (d : String) (h : x ≠ "") :
    pyOrDefault (some x) d = x := by
  simp [pyOrDefault, h]

/-- C2.  A complete run executes preprocess, process and postprocess in that
order (visible in the recorded status assignments), short-circuits to a
`{success: false, error, job_id}` record as soon as a phase fails — the
later phases leaving no trace — and converts every exception raised by the
underlying helpers (modelled by the `Except`-valued `JobEnv` fields) into
such a record, never letting one escape: the returned record always carries
the job's id, and each raising site yields `success = false` together with
its prefixed error message. -/
theorem C2_complete_pipeline (env : JobEnv) (s : JobState) :
    ((run_complete_processing env s).2.job_id = s.job_id)
    ∧ (∀ e, env.preprocessResult = .error e →
        (run_complete_processing env s).2 =
          { success := false
            error := some ("Error en preprocesamiento: " ++ e)
            job_id := s.job_id }
        ∧ (run_complete_processing env s).1.statusTrace =
            s.statusTrace ++ [.preprocessing, .failed])
    ∧ (env.preprocessResult = .ok false →
        (run_complete_processing env s).2 =
          { success := false
            error := some
              "Error en preprocesamiento: preprocess_single_zip returned False"
            job_id := s.job_id }
        ∧ (run_complete_processing env s).1.statusTrace =
            s.statusTrace ++ [.preprocessing, .failed])
    ∧ (∀ e, env.preprocessResult = .ok true → env.textLoadResult = .error e →
        (run_complete_processing env s).2 =
          { success := false
            error := some ("Error en procesamiento: " ++ e)
            job_id := s.job_id }
        ∧ (run_complete_processing env s).1.statusTrace =
            s.statusTrace ++ [.preprocessing, .processing, .failed])
    ∧ (∀ errs, env.preprocessResult = .ok true →
        env.textLoadResult = .ok () → env.validateResult = (false, errs) →
        (run_complete_processing env s).2 =
          { success := false
            error := some ("Error en procesamiento: "
              ++ ("Validación fallida: " ++ String.intercalate "; " errs))
            job_id := s.job_id }
        ∧ (run_complete_processing env s).1.statusTrace =
            s.statusTrace ++ [.preprocessing, .processing, .failed])
    ∧ (∀ e v, env.preprocessResult = .ok true → env.textLoadResult = .ok () →
        env.validateResult = (true, v) → env.audioResult = .error e →
        (run_complete_processing env s).2 =
          { success := false
            error := some ("Error en procesamiento: " ++ e)
            job_id := s.job_id }
        ∧ (run_complete_processing env s).1.statusTrace =
            s.statusTrace ++ [.preprocessing, .processing, .failed])
    ∧ (∀ r v, env.preprocessResult = .ok true → env.textLoadResult = .ok () →
        env.validateResult = (true, v) → env.audioResult = .ok r →
        r.success = false → s.error = none →
        (run_complete_processing env s).2 =
          { success := false
            error := some "Error en procesamiento"
            job_id := s.job_id }
        ∧ (run_complete_processing env s).1.statusTrace =
            s.statusTrace ++ [.preprocessing, .processing])
    ∧ (∀ r v e, env.preprocessResult = .ok true → env.textLoadResult = .ok () →
        env.validateResult = (true, v) → env.audioResult = .ok r →
        r.success = true → env.postprocessResult = .error e →
        (run_complete_processing env s).2 =
          { success := false
            error := some ("Error en postprocesamiento: " ++ e)
            job_id := s.job_id }
        ∧ (run_complete_processing env s).1.statusTrace =
            s.statusTrace ++ [.preprocessing, .processing, .postprocessing,
              .failed])
    ∧ (∀ r v, env.preprocessResult = .ok true → env.textLoadResult = .ok () →
        env.validateResult = (true, v) → env.audioResult = .ok r →
        r.success = true → env.postprocessResult = .ok false →
        (run_complete_processing env s).2 =
          { success := false
            error := some
              "Error en postprocesamiento: postprocess_single_zip returned False"
            job_id := s.job_id }
        ∧ (run_complete_processing env s).1.statusTrace =
            s.statusTrace ++ [.preprocessing, .processing, .postprocessing,
              .failed])
    ∧ (∀ r v, env.preprocessResult = .ok true → env.textLoadResult = .ok () →
        env.validateResult = (true, v) → env.audioResult = .ok r →
        r.success = true → env.postprocessResult = .ok true →
        (run_complete_processing env s).2 =
          { success := true
            job_id := s.job_id
            zip_name := some s.zip_name
            output_file := some s.final_output_path
            processing_result := some r }
        ∧ (run_complete_processing env s).1.statusTrace =
            s.statusTrace ++ [.preprocessing, .processing, .postprocessing,
              .completed]) := by
  obtain ⟨pre, load, val, audio, post⟩ := env
  refine ⟨?_, ?_, ?_, ?_, ?_, ?_, ?_, ?_, ?_, ?_⟩
  · rcases pre with e | b
    · simp [run_complete_processing, preprocess, process, postprocess,
        setStatus, Bind.bind, Except.bind]
    · rcases b with _ | _
      · simp [run_complete_processing, preprocess, process, postprocess,
          setStatus, Bind.bind, Except.bind, Pure.pure, Except.pure]
      · rcases load with e | u
        · simp [run_complete_processing, preprocess, process, postprocess,
            setStatus, Bind.bind, Except.bind, Pure.pure, Except.pure]
        · obtain ⟨iv, errs⟩ := val
          rcases iv with _ | _
          · simp [run_complete_processing, preprocess, process, postprocess,
              setStatus, Bind.bind, Except.bind, Pure.pure, Except.pure]
          · rcases audio with e | r
            · simp [run_complete_processing, preprocess, process, postprocess,
                setStatus, Bind.bind, Except.bind, Pure.pure, Except.pure]
            · by_cases hr : r.success
              · rcases post with e | b2
                · simp [run_complete_processing, preprocess, process,
                    postprocess, setStatus, Bind.bind, Except.bind, Pure.pure, Except.pure, hr]
                · rcases b2 with _ | _ <;>
                    simp [run_complete_processing, preprocess, process,
                      postprocess, setStatus, Bind.bind, Except.bind, Pure.pure, Except.pure, hr]
              · simp [run_complete_processing, preprocess, process,
                  postprocess, setStatus, Bind.bind, Except.bind, Pure.pure, Except.pure,
                  Bool.not_eq_true .. ▸ hr, hr]
  · intro e he
    cases he
    constructor <;>
      simp [run_complete_processing, preprocess, process, postprocess,
        setStatus, Bind.bind, Except.bind]
  · intro he
    cases he
    constructor <;>
      simp [run_complete_processing, preprocess, process, postprocess,
        setStatus, Bind.bind, Except.bind, Pure.pure, Except.pure]
  · intro e hp hl
    cases hp; cases hl
    have hne := pyOrDefault_some_ne "Error en procesamiento"
      (append_ne_empty_left "Error en procesamiento: " e (by decide))
    constructor <;>
      simp [run_complete_processing, preprocess, process, postprocess,
        setStatus, Bind.bind, Except.bind, Pure.pure, Except.pure, hne]
  · intro errs hp hl hv
    cases hp; cases hl; cases hv
    have hne := pyOrDefault_some_ne "Error en procesamiento"
      (append_ne_empty_left "Error en procesamiento: "
        ("Validación fallida: " ++ String.intercalate "; " errs) (by decide))
    constructor <;>
      simp [run_complete_processing, preprocess, process, postprocess,
        setStatus, Bind.bind, Except.bind, Pure.pure, Except.pure, hne]
  · intro e v hp hl hv ha
    cases hp; cases hl; cases hv; cases ha
    have hne := pyOrDefault_some_ne "Error en procesamiento"
      (append_ne_empty_left "Error en procesamiento: " e (by decide))
    constructor <;>
      simp [run_complete_processing, preprocess, process, postprocess,
        setStatus, Bind.bind, Except.bind, Pure.pure, Except.pure, hne]
  · intro r v hp hl hv ha hr hserr
    cases hp; cases hl; cases hv; cases ha
    constructor <;>
      simp [run_complete_processing, preprocess, process, postprocess,
        setStatus, pyOrDefault, Bind.bind, Except.bind, Pure.pure, Except.pure, hr, hserr]
  · intro r v e hp hl hv ha hr hpost
    cases hp; cases hl; cases hv; cases ha; cases hpost
    constructor <;>
      simp [run_complete_processing, preprocess, process, postprocess,
        setStatus, Bind.bind, Except.bind, Pure.pure, Except.pure, hr]
  · intro r v hp hl hv ha hr hpost
    cases hp; cases hl; cases hv; cases ha; cases hpost
    constructor <;>
      simp [run_complete_processing, preprocess, process, postprocess,
        setStatus, Bind.bind, Except.bind, Pure.pure, Except.pure, hr]
  · intro r v hp hl hv ha hr hpost
    cases hp; cases hl; cases hv; cases ha; cases hpost
    constructor <;>
      simp [run_complete_processing, preprocess, process, postprocess,
        setStatus, Bind.bind, Except.bind, Pure.pure, Except.pure, hr]

/-- C2 witness: a concrete job whose preprocess helper raises; the run
yields the converted failure record. -/
theorem C2_complete_pipeline_witness :
    (run_complete_processing
      { preprocessResult := .error "boom", textLoadResult := .ok ()
        validateResult := (true, []), audioResult := .ok { success := true }
        postprocessResult := .ok true }
      (mkJob "j1" "chat.zip" "out.txt")).2 =
      { success := false, error := some "Error en preprocesamiento: boom"
        job_id := "j1" } :=
  ((C2_complete_pipeline _ _).2.1 "boom" rfl).1

/-- C3.  Running all registered jobs yields exactly one entry per registered
job id (the keys of the result mapping are the registry keys, and they stay
duplicate-free); a job whose execution raised is still recorded under its id
with a synthesized `{success: false, error, job_id}` record; and every
normally returning job keeps its own result regardless of what the other
jobs did. -/
theorem C3_failure_containment (jobs : List JobRun) :
    ((process_all_jobs jobs).map Prod.fst = jobs.map Prod.fst)
    ∧ ((jobs.map Prod.fst).Nodup →
        ((process_all_jobs jobs).map Prod.fst).Nodup)
    ∧ (∀ jid e, (jid, Except.error e) ∈ jobs →
        (jid, ({ success := false, error := some e, job_id := jid } :
          RunResult)) ∈ process_all_jobs jobs)
    ∧ (∀ jid r, (jid, Except.ok r) ∈ jobs →
        (jid, r) ∈ process_all_jobs jobs) := by
  by_cases hj : jobs.isEmpty
  · rw [List.isEmpty_iff] at hj
    subst hj
    refine ⟨rfl, fun h => h, ?_, ?_⟩ <;> intro jid x hx <;> cases hx
  · have hkeys : (process_all_jobs jobs).map Prod.fst = jobs.map Prod.fst := by
      rw [process_all_jobs, if_neg hj, List.map_map]
      rfl
    refine ⟨hkeys, fun h => hkeys ▸ h, ?_, ?_⟩
    · intro jid e hmem
      rw [process_all_jobs, if_neg hj]
      exact List.mem_map.mpr ⟨(jid, Except.error e), hmem, rfl⟩
    · intro jid r hmem
      rw [process_all_jobs, if_neg hj]
      exact List.mem_map.mpr ⟨(jid, Except.ok r), hmem, rfl⟩

/-- C3 witness: three registered jobs, the middle one raising; the raising
job is recorded with a synthesized failure and the other two keep their own
successful results. -/
theorem C3_failure_containment_witness :
    (("b", ({ success := false, error := some "boom", job_id := "b" } :
        RunResult)) ∈
      process_all_jobs [("a", .ok { success := true, job_id := "a" }),
        ("b", .error "boom"), ("c", .ok { success := true, job_id := "c" })])
    ∧ (("a", ({ success := true, job_id := "a" } : RunResult)) ∈
      process_all_jobs [("a", .ok { success := true, job_id := "a" }),
        ("b", .error "boom"), ("c", .ok { success := true, job_id := "c" })])
    ∧ (("c", ({ success := true, job_id := "c" } : RunResult)) ∈
      process_all_jobs [("a", .ok { success := true, job_id := "a" }),
        ("b", .error "boom"), ("c", .ok { success := true, job_id := "c" })]) :=
  ⟨(C3_failure_containment _).2.2.1 "b" "boom"
      (List.mem_cons_of_mem _ (List.mem_cons_self _ _)),
    (C3_failure_containment _).2.2.2 "a" _ (List.mem_cons_self _ _),
    (C3_failure_containment _).2.2.2 "c" _
      (List.mem_cons_of_mem _ (List.mem_cons_of_mem _
        (List.mem_cons_self _ _)))⟩

/-- C4 counterexample.  The claim says no execution phase ever runs on a job
that is already cancelled, failed or completed; but neither
`run_complete_processing` nor `process_all_jobs` checks the status before
running, so dispatching a cancelled (or re-dispatching a completed) job
executes `preprocess`, producing the backward transitions
`cancelled → preprocessing` and `completed → preprocessing` that the claimed
policy forbids. -/
theorem C4_counterexample :
    ((preprocess
      { preprocessResult := .ok true, textLoadResult := .ok ()
        validateResult := (true, []), audioResult := .ok { success := true }
        postprocessResult := .ok true }
      { job_id := "j1", zip_name := "z.zip", final_output_path := "o.txt"
        status := .cancelled, error := none, result := none
        statusTrace := [.pending, .cancelled] }).1.statusTrace =
      [.pending, .cancelled, .preprocessing])
    ∧ allowedStep .cancelled .preprocessing = false
    ∧ ((preprocess
      { preprocessResult := .ok true, textLoadResult := .ok ()
        validateResult := (true, []), audioResult := .ok { success := true }
        postprocessResult := .ok true }
      { job_id := "j1", zip_name := "z.zip", final_output_path := "o.txt"
        status := .completed, error := none, result := none
        statusTrace := [.pending, .preprocessing, .processing,
          .postprocessing, .completed] }).1.statusTrace =
      [.pending, .preprocessing, .processing, .postprocessing, .completed,
        .preprocessing])
    ∧ allowedStep .completed .preprocessing = false := by
  refine ⟨by decide, by decide, by decide, by decide⟩

/-- C4 (amended).  Within a single execution of `run_complete_processing`
started on a fresh (pending) job, every recorded status transition moves
forward along `pending → preprocessing → processing → postprocessing →
completed` or jumps to `failed` from a non-terminal state; and `cancel_job`
moves a job to `cancelled` exactly from `pending`, leaving any other job
untouched.  (The code does not, however, prevent an execution phase from
being dispatched on an already cancelled, completed or failed job; re-running
then produces backward transitions, see the counterexample.) -/
theorem C4_state_machine :
    (∀ (env : JobEnv) (s : JobState), s.statusTrace = [.pending] →
      List.Chain' (fun a b => allowedStep a b = true)
        ((run_complete_processing env s).1.statusTrace))
    ∧ (∀ s : JobState, s.status = .pending →
        cancel_job s = (setStatus s .cancelled, true)
          ∧ allowedStep .pending .cancelled = true)
    ∧ (∀ s : JobState, s.status ≠ .pending → cancel_job s = (s, false)) := by
  refine ⟨?_, ?_, ?_⟩
  · intro env s ht
    obtain ⟨pre, load, val, audio, post⟩ := env
    rcases pre with e | b
    · simp [run_complete_processing, preprocess, process, postprocess,
        setStatus, Bind.bind, Except.bind, ht] <;> decide
    rcases b with _ | _
    · simp [run_complete_processing, preprocess, process, postprocess,
        setStatus, Bind.bind, Except.bind, Pure.pure, Except.pure, ht] <;> decide
    rcases load with e | u
    · simp [run_complete_processing, preprocess, process, postprocess,
        setStatus, Bind.bind, Except.bind, Pure.pure, Except.pure, ht] <;> decide
    obtain ⟨iv, errs⟩ := val
    rcases iv with _ | _
    · simp [run_complete_processing, preprocess, process, postprocess,
        setStatus, Bind.bind, Except.bind, Pure.pure, Except.pure, ht] <;> decide
    rcases audio with e | r
    · simp [run_complete_processing, preprocess, process, postprocess,
        setStatus, Bind.bind, Except.bind, Pure.pure, Except.pure, ht] <;> decide
    by_cases hr : r.success
    · rcases post with e | b2
      · simp [run_complete_processing, preprocess, process, postprocess,
          setStatus, Bind.bind, Except.bind, Pure.pure, Except.pure, hr, ht] <;> decide
      · rcases b2 with _ | _ <;>
          simp [run_complete_processing, preprocess, process, postprocess,
            setStatus, Bind.bind, Except.bind, Pure.pure, Except.pure, hr, ht] <;> decide
    · simp [run_complete_processing, preprocess, process, postprocess,
        setStatus, Bind.bind, Except.bind, Pure.pure, Except.pure, hr, ht] <;> decide
  · intro s hs
    exact ⟨by simp [cancel_job, hs], by decide⟩
  · intro s hs
    simp [cancel_job, hs]

/-- C4 witness: a full successful run from a fresh pending job records only
transitions the claimed policy allows. -/
theorem C4_state_machine_witness :
    List.Chain' (fun a b => allowedStep a b = true)
      ((run_complete_processing
        { preprocessResult := .ok true, textLoadResult := .ok ()
          validateResult := (true, []), audioResult := .ok { success := true }
          postprocessResult := .ok true }
        (mkJob "j1" "chat.zip" "out.txt")).1.statusTrace) :=
  (C4_state_machine).1 _ (mkJob "j1" "chat.zip" "out.txt") rfl

/-! ### Lemmas about the transcription lookup and selection loop -/

theorem lookup_transcribe_mem {l : List String} {g : String → TResult}
    {f : String} (hf : f ∈ l) :
    (l.map fun p => (p, g p)).lookup f = some (g f) := by
  induction l with
  | nil => cases hf
  | cons a t ih =>
    by_cases hfa : f = a
    · subst hfa
      simp [List.lookup]
    · have : (f == a) = false := beq_eq_false_iff_ne.mpr hfa
      rcases List.mem_cons.mp hf with h | h
      · exact absurd h hfa
      · simpa [List.lookup, this] using ih h

theorem lookup_transcribe_eq {g : String → TResult} {f : String}
    {td : TResult} :
    ∀ {l : List String},
      (l.map fun p => (p, g p)).lookup f = some td → td = g f
  | [], h => by simp [List.lookup] at h
  | a :: t, h => by
    by_cases hfa : f = a
    · subst hfa
      simp [List.lookup] at h
      exact h.symm
    · have hba : (f == a) = false := beq_eq_false_iff_ne.mpr hfa
      rw [List.map_cons, List.lookup, hba] at h
      exact lookup_transcribe_eq h

theorem buildInserts_unusable {l : List String} {g : String → TResult} :
    ∀ {awt : List (String × PyDateTime)},
      (∀ f t, (f, t) ∈ awt → (g f).error ≠ none ∨ (g f).text = "") →
      buildInserts awt (l.map fun p => (p, g p)) = ([], 0)
  | [], _ => rfl
  | (fp, ts) :: rest, h => by
    have ih := buildInserts_unusable (l := l) (g := g)
      (fun f t hm => h f t (List.mem_cons_of_mem _ hm))
    rw [buildInserts, ih]
    cases hlk : (l.map fun p => (p, g p)).lookup fp with
    | none => rfl
    | some td =>
      have htd : td = g fp := lookup_transcribe_eq hlk
      have hcond : ¬(td.error = none ∧ td.text ≠ "") := by
        rcases h fp ts (List.mem_cons_self _ _) with he | ht
        · exact fun hc => he (htd ▸ hc.1)
        · exact fun hc => hc.2 (htd ▸ ht)
      simp [hcond]

theorem buildInserts_ne_nil {tmap : List (String × TResult)} :
    ∀ {awt : List (String × PyDateTime)},
      (buildInserts awt tmap).1 ≠ [] →
      ∃ f t td, (f, t) ∈ awt ∧ tmap.lookup f = some td
        ∧ td.error = none ∧ td.text ≠ ""
  | [], h => absurd rfl h
  | (fp, ts) :: rest, h => by
    rw [buildInserts] at h
    cases hlk : tmap.lookup fp with
    | none =>
      rw [hlk] at h
      obtain ⟨f, t, td, hm, hl, he, ht⟩ := buildInserts_ne_nil h
      exact ⟨f, t, td, List.mem_cons_of_mem _ hm, hl, he, ht⟩
    | some td =>
      rw [hlk] at h
      dsimp only at h
      by_cases hcond : td.error = none ∧ td.text ≠ ""
      · exact ⟨fp, ts, td, List.mem_cons_self _ _, hlk, hcond.1, hcond.2⟩
      · rw [if_neg hcond] at h
        obtain ⟨f, t, td', hm, hl, he, ht⟩ := buildInserts_ne_nil h
        exact ⟨f, t, td', List.mem_cons_of_mem _ hm, hl, he, ht⟩

/-- C10.  If at least one audio attachment with an extractable timestamp is
found but every transcription either carries an error or has empty text,
the run returns the failure record (success false with the error message)
and leaves the buffer alone; conversely, an overall audio success implies at
least one error-free, non-empty transcription among the enumerated files. -/
theorem C10_success_needs_usable_transcription :
    (∀ (dir : List String) (transcribe : String → TResult)
        (lines : List String),
      get_audio_files_with_timestamps dir ≠ [] →
      (∀ f t, (f, t) ∈ get_audio_files_with_timestamps dir →
        (transcribe f).error ≠ none ∨ (transcribe f).text = "") →
      process_audio_files dir transcribe lines =
        ({ success := false
           message := some "Error en el procesamiento de transcripciones" },
          lines))
    ∧ (∀ (dir : List String) (transcribe : String → TResult)
        (lines : List String),
        (process_audio_files dir transcribe lines).1.success = true →
        ∃ f t, (f, t) ∈ get_audio_files_with_timestamps dir
          ∧ (transcribe f).error = none ∧ (transcribe f).text ≠ "") := by
  constructor
  · intro dir transcribe lines hne hall
    have hsel : buildInserts (get_audio_files_with_timestamps dir)
        (transcribe_multiple
          ((get_audio_files_with_timestamps dir).map Prod.fst) transcribe) =
        ([], 0) := by
      rw [transcribe_multiple]
      exact buildInserts_unusable hall
    unfold process_audio_files
    rw [if_neg hne]
    dsimp only
    rw [hsel]
    simp
  · intro dir transcribe lines hsucc
    unfold process_audio_files at hsucc
    by_cases hawt : get_audio_files_with_timestamps dir = []
    · rw [if_pos hawt] at hsucc
      simp at hsucc
    · rw [if_neg hawt] at hsucc
      dsimp only at hsucc
      by_cases hsel : (buildInserts (get_audio_files_with_timestamps dir)
          (transcribe_multiple
            ((get_audio_files_with_timestamps dir).map Prod.fst)
            transcribe)).1 = []
      · rw [if_neg (fun hc => hc hsel)] at hsucc
        simp at hsucc
      · obtain ⟨f, t, td, hm, hlk, he, ht⟩ := buildInserts_ne_nil hsel
        have htd : td = transcribe f := by
          rw [transcribe_multiple] at hlk
          exact lookup_transcribe_eq hlk
        exact ⟨f, t, hm, htd ▸ he, htd ▸ ht⟩

/-- C10 witness: one found attachment whose transcription is empty; the run
fails with the error message and touches nothing. -/
theorem C10_success_needs_usable_transcription_witness :
    process_audio_files ["PTT-20250613-WA0001.opus"]
      (fun _ => { text := "" }) ["x"] =
      ({ success := false
         message := some "Error en el procesamiento de transcripciones" },
        ["x"]) :=
  (C10_success_needs_usable_transcription).1 _ _ _ (by decide)
    (fun f t _ => Or.inr rfl)


/-- C7.  Three audio attachments are found (two sharing a date, exercising
the stable tie-break); the transcription oracle returns an error for the
second file and arbitrary non-empty texts for the other two; the buffer
holds one placeholder line per file.  The run reports total found 3,
successful transcriptions 2, inserts exactly the two successful texts at
their placeholders (the error file's line stays intact) and returns an
overall success result. -/
theorem C7_partial_batch_success (s1 s3 e : String) (h1 : s1 ≠ "")
    (h3 : s3 ≠ "") :
    process_audio_files
        ["PTT-20250613-WA0001.opus", "PTT-20250613-WA0002.opus",
          "PTT-20250614-WA0003.opus"]
        (fun f => if f = "PTT-20250613-WA0002.opus" then
            ({ text := "", error := some e } : TResult)
          else if f = "PTT-20250613-WA0001.opus" then { text := s1 }
          else { text := s3 })
        ["A: PTT-20250614-WA0003.opus (archivo adjunto) end",
          "B: PTT-20250613-WA0001.opus (archivo adjunto) tail",
          "C: PTT-20250613-WA0002.opus (archivo adjunto)"] =
      ({ success := true
         total_audio_files := some 3
         successful_transcriptions := some 2
         inserted_transcriptions := some 2
         transcriptions :=
           [{ text := s1, timestamp := ⟨2025,6,13,0,0,0,0⟩
              sender := "Transcripción de Audio"
              audio_file := "PTT-20250613-WA0001.opus"
              audio_filename := "PTT-20250613-WA0001.opus"
              language := "unknown" },
            { text := s3, timestamp := ⟨2025,6,14,0,0,0,0⟩
              sender := "Transcripción de Audio"
              audio_file := "PTT-20250614-WA0003.opus"
              audio_filename := "PTT-20250614-WA0003.opus"
              language := "unknown" }] },
        ["A: " ++ s3 ++ " end", "B: " ++ s1 ++ " tail",
          "C: PTT-20250613-WA0002.opus (archivo adjunto)"]) := by
  have hawt : get_audio_files_with_timestamps ["PTT-20250613-WA0001.opus",
      "PTT-20250613-WA0002.opus", "PTT-20250614-WA0003.opus"] =
      [("PTT-20250613-WA0001.opus", ⟨2025,6,13,0,0,0,0⟩),
       ("PTT-20250613-WA0002.opus", ⟨2025,6,13,0,0,0,0⟩),
       ("PTT-20250614-WA0003.opus", ⟨2025,6,14,0,0,0,0⟩)] := by decide
  have htm : transcribe_multiple ["PTT-20250613-WA0001.opus",
      "PTT-20250613-WA0002.opus", "PTT-20250614-WA0003.opus"]
      (fun f => if f = "PTT-20250613-WA0002.opus" then
          ({ text := "", error := some e } : TResult)
        else if f = "PTT-20250613-WA0001.opus" then { text := s1 }
        else { text := s3 }) =
      [("PTT-20250613-WA0001.opus", { text := s1 }),
       ("PTT-20250613-WA0002.opus", { text := "", error := some e }),
       ("PTT-20250614-WA0003.opus", { text := s3 })] := rfl
  have hbuild : buildInserts
      [(("PTT-20250613-WA0001.opus" : String),
        (⟨2025,6,13,0,0,0,0⟩ : PyDateTime)),
       ("PTT-20250613-WA0002.opus", ⟨2025,6,13,0,0,0,0⟩),
       ("PTT-20250614-WA0003.opus", ⟨2025,6,14,0,0,0,0⟩)]
      [("PTT-20250613-WA0001.opus", ({ text := s1 } : TResult)),
       ("PTT-20250613-WA0002.opus", { text := "", error := some e }),
       ("PTT-20250614-WA0003.opus", { text := s3 })] =
      ([{ text := s1, timestamp := ⟨2025,6,13,0,0,0,0⟩
          sender := "Transcripción de Audio"
          audio_file := "PTT-20250613-WA0001.opus"
          audio_filename := "PTT-20250613-WA0001.opus"
          language := "unknown" },
        { text := s3, timestamp := ⟨2025,6,14,0,0,0,0⟩
          sender := "Transcripción de Audio"
          audio_file := "PTT-20250614-WA0003.opus"
          audio_filename := "PTT-20250614-WA0003.opus"
          language := "unknown" }], 2) := by
    simp +decide [buildInserts, List.lookup, h1, h3, pathName, splitChar]
  have hins : insert_multiple_transcriptions
      ["A: PTT-20250614-WA0003.opus (archivo adjunto) end",
       "B: PTT-20250613-WA0001.opus (archivo adjunto) tail",
       "C: PTT-20250613-WA0002.opus (archivo adjunto)"]
      [{ text := s1, timestamp := ⟨2025,6,13,0,0,0,0⟩
         sender := "Transcripción de Audio"
         audio_file := "PTT-20250613-WA0001.opus"
         audio_filename := "PTT-20250613-WA0001.opus"
         language := "unknown" },
       { text := s3, timestamp := ⟨2025,6,14,0,0,0,0⟩
         sender := "Transcripción de Audio"
         audio_file := "PTT-20250614-WA0003.opus"
         audio_filename := "PTT-20250614-WA0003.opus"
         language := "unknown" }] =
      (2, ["A: " ++ s3 ++ " end", "B: " ++ s1 ++ " tail",
           "C: PTT-20250613-WA0002.opus (archivo adjunto)"]) := by
    have hin10 : pyIn (placeholderOf "PTT-20250613-WA0001.opus")
      "A: PTT-20250614-WA0003.opus (archivo adjunto) end" = false := by decide
    have hin11 : pyIn (placeholderOf "PTT-20250613-WA0001.opus")
      "B: PTT-20250613-WA0001.opus (archivo adjunto) tail" = true := by decide
    have hin30 : pyIn (placeholderOf "PTT-20250614-WA0003.opus")
      "A: PTT-20250614-WA0003.opus (archivo adjunto) end" = true := by decide
    have hrep1 : pyReplace "B: PTT-20250613-WA0001.opus (archivo adjunto) tail"
      (placeholderOf "PTT-20250613-WA0001.opus") s1 =
        "B: " ++ s1 ++ " tail" := rfl
    have hrep3 : pyReplace "A: PTT-20250614-WA0003.opus (archivo adjunto) end"
      (placeholderOf "PTT-20250614-WA0003.opus") s3 =
        "A: " ++ s3 ++ " end" := rfl
    have hfn1 : (("PTT-20250613-WA0001.opus" : String) = "") = False :=
      eq_false (by decide)
    have hfn3 : (("PTT-20250614-WA0003.opus" : String) = "") = False :=
      eq_false (by decide)
    have hsort : List.insertionSort
        (fun a b : InsertItem => a.timestamp.key ≤ b.timestamp.key)
        [{ text := s1, timestamp := ⟨2025,6,13,0,0,0,0⟩
           sender := "Transcripción de Audio"
           audio_file := "PTT-20250613-WA0001.opus"
           audio_filename := "PTT-20250613-WA0001.opus"
           language := "unknown" },
         { text := s3, timestamp := ⟨2025,6,14,0,0,0,0⟩
           sender := "Transcripción de Audio"
           audio_file := "PTT-20250614-WA0003.opus"
           audio_filename := "PTT-20250614-WA0003.opus"
           language := "unknown" }] =
        [{ text := s1, timestamp := ⟨2025,6,13,0,0,0,0⟩
           sender := "Transcripción de Audio"
           audio_file := "PTT-20250613-WA0001.opus"
           audio_filename := "PTT-20250613-WA0001.opus"
           language := "unknown" },
         { text := s3, timestamp := ⟨2025,6,14,0,0,0,0⟩
           sender := "Transcripción de Audio"
           audio_file := "PTT-20250614-WA0003.opus"
           audio_filename := "PTT-20250614-WA0003.opus"
           language := "unknown" }] := by
      rw [List.insertionSort, List.insertionSort, List.insertionSort,
        List.orderedInsert, List.orderedInsert]
      rw [if_pos (by decide : (⟨2025,6,13,0,0,0,0⟩ : PyDateTime).key ≤
        (⟨2025,6,14,0,0,0,0⟩ : PyDateTime).key)]
    rw [insert_multiple_transcriptions, hsort]
    simp only [insertLoop, insert_transcription, scanReplace, hin10, hin11,
      hin30, hrep1, hrep3, hfn1, hfn3, h1, h3, ne_eq, not_false_eq_true,
      if_true, if_false, Bool.false_eq_true, ite_false, ite_true]
  unfold process_audio_files
  dsimp only
  rw [hawt]
  rw [if_neg (by decide)]
  simp only [List.map_cons, List.map_nil]
  rw [htm, hbuild]
  dsimp only
  rw [if_pos (by simp : ¬ (_ :: _ = ([] : List InsertItem)))]
  rw [hins]
  rfl

/-- C7 witness: the theorem at concrete transcription texts. -/
theorem C7_partial_batch_success_witness :
    (process_audio_files
      ["PTT-20250613-WA0001.opus", "PTT-20250613-WA0002.opus",
        "PTT-20250614-WA0003.opus"]
      (fun f => if f = "PTT-20250613-WA0002.opus" then
          ({ text := "", error := some "boom" } : TResult)
        else if f = "PTT-20250613-WA0001.opus" then { text := "hola" }
        else { text := "bien" })
      ["A: PTT-20250614-WA0003.opus (archivo adjunto) end",
        "B: PTT-20250613-WA0001.opus (archivo adjunto) tail",
        "C: PTT-20250613-WA0002.opus (archivo adjunto)"]).1.success = true :=
  congrArg (fun p => p.1.success)
    (C7_partial_batch_success "hola" "bien" "boom" (by decide) (by decide))

/-- C6 witness: the membership characterization of the amended theorem at a
concrete two-file listing. -/
theorem C6_sorted_enumeration_witness :
    ("PTT-20250613-WA0001.opus", (⟨2025,6,13,0,0,0,0⟩ : PyDateTime)) ∈
      get_audio_files_with_timestamps
        ["PTT-20250614-WA0003.opus", "PTT-20250613-WA0001.opus"] :=
  ((C6_sorted_enumeration _).2.2.1 _ _).mpr ⟨by decide, by decide, by decide⟩

end SalesAnalyzer
